import Mathlib

/-!
Verification of the pomodoro session tracker (`pomodoro.py`).

We shallowly embed the core of the tracker:
* an `Action` is one `start`/`stop` event with a timestamp (timestamps are
  modelled as minutes-since-midnight `Nat`; ISO timestamp strings are
  order-isomorphic to these, and `recap` subtracts them, so durations are `Int`);
* the per-day log `self.activity_log` is an association list in insertion
  order, mirroring a Python `dict` from activity name to action list;
* a `Pomodoro` value is the object state after `__init__`: its reference
  `time`, target `activity`, the `date` field of `self.data`, the in-memory
  activity map, and a `linked` flag recording whether `self.data` contains the
  `"activities"` key (in which case `self.activity_log` aliases it; otherwise
  `self.data.get("activities", {})` produced a fresh dict detached from
  `self.data`, and writes of `self.data` do not contain the log);
* operations that can raise an uncaught `IndexError` (the `[-1]` accesses on a
  possibly empty list) return `none` in that case;
* the interactive confirmation gate `_get_approval` is a `Bool` parameter.
-/

namespace Pom

structure Action where
  action : String
  time : Nat
deriving DecidableEq, Repr

/-- The in-memory `self.activity_log`: activity name → ordered action list,
in insertion order (a Python dict). -/
abbrev ActivityMap := List (String × List Action)

/-- Dict lookup: `activity_log[k]` / `k in activity_log`. -/
def findAct : ActivityMap → String → Option (List Action)
  | [], _ => none
  | (k', v) :: rest, k => if k' = k then some v else findAct rest k

/-- Dict assignment `activity_log[k] = v`: overwrite in place if the key
exists, else append the new key at the end (Python dict insertion order). -/
def setAct : ActivityMap → String → List Action → ActivityMap
  | [], k, v => [(k, v)]
  | (k', v') :: rest, k, v =>
      if k' = k then (k, v) :: rest else (k', v') :: setAct rest k v

/-- Append `activity_log[k].append(a)` for a key known to be present (every call
site of the append in `_add_action` has the key in the dict). -/
def appendAct (m : ActivityMap) (k : String) (a : Action) : ActivityMap :=
  m.map (fun p => if p.1 = k then (p.1, p.2 ++ [a]) else p)

/-- The JSON structure persisted in a per-date file: the `"date"` entry and
the optional `"activities"` entry (`none` when the key is absent). -/
structure FileData where
  date : String
  activities : Option ActivityMap
deriving DecidableEq, Repr

/-- The `Pomodoro` object state after `__init__`. `linked` records whether
`self.data` has the `"activities"` key, aliased by `self.activity_log`. -/
structure Pomodoro where
  time : Nat
  activity : String
  date : String
  linked : Bool
  activity_log : ActivityMap
deriving DecidableEq, Repr

/-- Model of `Pomodoro.__init__`: read the per-date file if it exists, else start from
`{"date": isoDate}`; `self.activity_log = self.data.get("activities", {})`,
which aliases `self.data["activities"]` exactly when that key exists. -/
def initPomodoro (time : Nat) (isoDate : String) (activity : String)
    (file : Option FileData) : Pomodoro :=
  match file with
  | some fd =>
      { time := time, activity := activity, date := fd.date,
        linked := fd.activities.isSome,
        activity_log := fd.activities.getD [] }
  | none =>
      { time := time, activity := activity, date := isoDate,
        linked := false, activity_log := [] }

/-- Model of `Pomodoro._write_update`, i.e. `json.dump(self.data, f)`. The written
structure carries the activity map only when `self.data` holds the
`"activities"` key (i.e. when the log is linked). -/
def Pomodoro.write_update (p : Pomodoro) : FileData :=
  { date := p.date, activities := if p.linked then some p.activity_log else none }

/-- Result of a mutating call: the object state afterwards, whether
`_write_update` ran, and whether the duplicate warning fired. -/
structure ActionResult where
  state : Pomodoro
  wrote : Bool
  dupWarned : Bool
deriving DecidableEq, Repr

/-- Model of `Pomodoro._add_action`. Here `none` models the uncaught `IndexError` raised by
`self.activity_log[self.activity][-1]` when the key maps to an empty list. -/
def Pomodoro.add_action (p : Pomodoro) (action : String) (approve : Bool) :
    Option ActionResult :=
  let new_action : Action := { action := action, time := p.time }
  match findAct p.activity_log p.activity with
  | some acts =>
      match acts.getLast? with
      | none => none
      | some lastA =>
          let dup : Bool := decide (lastA = new_action)
          if approve then
            some { state :=
                     { p with activity_log := appendAct p.activity_log p.activity new_action },
                   wrote := true, dupWarned := dup }
          else
            some { state := p, wrote := false, dupWarned := dup }
  | none =>
      let p1 : Pomodoro := { p with activity_log := setAct p.activity_log p.activity [] }
      if approve then
        some { state :=
                 { p1 with activity_log := appendAct p1.activity_log p.activity new_action },
               wrote := true, dupWarned := false }
      else
        some { state := p1, wrote := false, dupWarned := false }

/-- Model of `Pomodoro.start`: refuse when the activity is present and its last action
is not a `stop`; otherwise run `_add_action("start")`. -/
def Pomodoro.start (p : Pomodoro) (approve : Bool) : Option ActionResult :=
  match findAct p.activity_log p.activity with
  | some acts =>
      match acts.getLast? with
      | none => none
      | some lastA =>
          if lastA.action ≠ "stop" then
            some { state := p, wrote := false, dupWarned := false }
          else
            p.add_action "start" approve
  | none => p.add_action "start" approve

/-- Model of `Pomodoro.stop`: refuse when the activity is absent or its last action is
not a `start`; otherwise run `_add_action("stop")`. -/
def Pomodoro.stop (p : Pomodoro) (approve : Bool) : Option ActionResult :=
  match findAct p.activity_log p.activity with
  | none => some { state := p, wrote := false, dupWarned := false }
  | some acts =>
      match acts.getLast? with
      | none => none
      | some lastA =>
          if lastA.action ≠ "start" then
            some { state := p, wrote := false, dupWarned := false }
          else
            p.add_action "stop" approve

/-- The per-date file after a mutating call: rewritten from `self.data` when
`_write_update` ran, untouched otherwise. -/
def fileAfter (before : Option FileData) (r : ActionResult) : Option FileData :=
  if r.wrote then some r.state.write_update else before

/-- The DayLog abstraction of an object state: its date and activity map. -/
def dayLogOf (p : Pomodoro) : String × ActivityMap := (p.date, p.activity_log)

/-- The loop `for session in range(n): total += actions[2s+1].time - actions[2s].time`
in `recap`; `none` models an out-of-range index access. -/
def sessionsTime (actions : List Action) : Nat → Option Int
  | 0 => some 0
  | n + 1 => do
      let acc ← sessionsTime actions n
      let a ← actions[2 * n]?
      let b ← actions[2 * n + 1]?
      pure (acc + ((b.time : Int) - (a.time : Int)))

/-- One row of `recap` for one activity: total time, finished sessions,
unfinished sessions. `none` models an out-of-range element access. -/
def recapRow (now : Nat) (actions : List Action) : Option (Int × Nat × Nat) := do
  let num_finished := actions.length / 2
  let num_unfinished := actions.length % 2
  let base ← sessionsTime actions num_finished
  let total ←
    if num_unfinished ≠ 0 then do
      let lastA ← actions.getLast?
      pure (base + ((now : Int) - (lastA.time : Int)))
    else
      pure base
  pure (total, num_finished, num_unfinished)

/-- The `for activity in self.activity_log` loop of `recap`, building one row
per activity in iteration order. -/
def recapRows (now : Nat) : List (String × List Action) → Option (List (String × Int × Nat × Nat))
  | [] => some []
  | q :: rest => do
      let row ← recapRow now q.2
      let rows ← recapRows now rest
      pure ((q.1, row) :: rows)

/-- Model of `Pomodoro.recap`: one row per activity in the day log. -/
def Pomodoro.recap (p : Pomodoro) : Option (List (String × Int × Nat × Nat)) :=
  recapRows p.time p.activity_log

/-- Spec-side pairing: sum of `stop.time - start.time` over consecutive pairs
`(actions[2i], actions[2i+1])`; an unmatched trailing element contributes 0. -/
def pairsTime : List Action → Int
  | a :: b :: rest => ((b.time : Int) - (a.time : Int)) + pairsTime rest
  | _ => 0

/-- Spec-side total for one activity: the pair sum, plus `now - last.time`
when the length is odd. -/
def totalSpec (now : Nat) (actions : List Action) : Int :=
  pairsTime actions +
    (if actions.length % 2 = 1 then
       (now : Int) - (((actions.getLast?).getD { action := "", time := 0 }).time : Int)
     else 0)

/-! ## Helper lemmas about the dict operations -/

theorem findAct_setAct_self (m : ActivityMap) (k : String) (v : List Action) :
    findAct (setAct m k v) k = some v := by
  induction m with
  | nil => simp [setAct, findAct]
  | cons p rest ih =>
      by_cases hk : p.1 = k
      · simp [setAct, hk, findAct]
      · simpa [setAct, hk, findAct] using ih

theorem findAct_appendAct_self (m : ActivityMap) (k : String) (a : Action) :
    findAct (appendAct m k a) k = (findAct m k).map (fun v => v ++ [a]) := by
  induction m with
  | nil => simp [appendAct, findAct]
  | cons q rest ih =>
      obtain ⟨k1, v⟩ := q
      unfold appendAct at ih ⊢
      simp only [List.map_cons]
      by_cases hk : k1 = k
      · subst hk
        rw [if_pos rfl]
        simp [findAct]
      · rw [if_neg hk]
        simp [findAct, hk, ih]

/-- A refused `_add_action` never reaches `_write_update`. -/
theorem add_action_refused_wrote (p : Pomodoro) (k : String) (r : ActionResult)
    (h : p.add_action k false = some r) : r.wrote = false := by
  unfold Pomodoro.add_action at h
  rcases hf : findAct p.activity_log p.activity with _ | acts <;> simp only [hf] at h
  · simp at h
    subst h
    rfl
  · rcases hl : acts.getLast? with _ | lastA <;> simp only [hl] at h
    · simp at h
    · simp at h
      subst h
      rfl

/-- A refused `start` or `stop` never reaches `_write_update`. -/
theorem mutation_refused_wrote (p : Pomodoro) (r : ActionResult)
    (h : p.start false = some r ∨ p.stop false = some r) : r.wrote = false := by
  rcases h with h | h
  · unfold Pomodoro.start at h
    rcases hf : findAct p.activity_log p.activity with _ | acts <;> simp only [hf] at h
    · exact add_action_refused_wrote p "start" r h
    · rcases hl : acts.getLast? with _ | lastA <;> simp only [hl] at h
      · simp at h
      · by_cases hs : lastA.action = "stop"
        · rw [if_neg (by simp [hs])] at h
          exact add_action_refused_wrote p "start" r h
        · rw [if_pos (by simp [hs])] at h
          simp at h
          subst h
          rfl
  · unfold Pomodoro.stop at h
    rcases hf : findAct p.activity_log p.activity with _ | acts <;> simp only [hf] at h
    · simp at h
      subst h
      rfl
    · rcases hl : acts.getLast? with _ | lastA <;> simp only [hl] at h
      · simp at h
      · by_cases hs : lastA.action = "start"
        · rw [if_neg (by simp [hs])] at h
          exact add_action_refused_wrote p "stop" r h
        · rw [if_pos (by simp [hs])] at h
          simp at h
          subst h
          rfl

/-- When the activity is absent, `_add_action` never reports a duplicate. -/
theorem add_action_absent_not_dup (p : Pomodoro) (k : String) (ap : Bool) (r : ActionResult)
    (hf : findAct p.activity_log p.activity = none)
    (h : p.add_action k ap = some r) : r.dupWarned = false := by
  unfold Pomodoro.add_action at h
  simp only [hf] at h
  cases ap <;> simp at h <;> subst h <;> rfl

/-- When the kind of the last recorded action differs from the kind of the candidate,
`_add_action` never reports a duplicate. -/
theorem add_action_kind_differs_not_dup (p : Pomodoro) (k : String) (ap : Bool)
    (acts : List Action) (lastA : Action) (r : ActionResult)
    (hf : findAct p.activity_log p.activity = some acts)
    (hl : acts.getLast? = some lastA)
    (hk : lastA.action ≠ k)
    (h : p.add_action k ap = some r) : r.dupWarned = false := by
  unfold Pomodoro.add_action at h
  simp only [hf, hl] at h
  have hd : decide (lastA = { action := k, time := p.time }) = false := by
    apply decide_eq_false
    intro he
    exact hk (by rw [he])
  rw [hd] at h
  cases ap <;> simp at h <;> subst h <;> rfl

/-! ## Claim theorems -/

/-- C1 (code bug): on a date with no pre-existing persisted file, an approved
`start` appends to the in-memory log and calls `_write_update`, but the
persisted structure has no `"activities"` entry at all (the log dict returned
by `self.data.get("activities", {})` is detached from `self.data`), so
re-loading the written file yields an empty activity mapping: the persisted
ActivityLog is not the performed sequence `[start@540]`. -/
theorem c1_fresh_date_actions_never_persisted :
    (initPomodoro 540 "2024-01-01" "work" none).start true =
      some { state := { time := 540, activity := "work", date := "2024-01-01",
                        linked := false,
                        activity_log := [("work", [{ action := "start", time := 540 }])] },
             wrote := true, dupWarned := false } ∧
    Pomodoro.write_update
        { time := 540, activity := "work", date := "2024-01-01", linked := false,
          activity_log := [("work", [{ action := "start", time := 540 }])] } =
      { date := "2024-01-01", activities := none } ∧
    dayLogOf (initPomodoro 900 "2024-01-01" "work"
        (some { date := "2024-01-01", activities := none })) = ("2024-01-01", []) :=
  ⟨rfl, rfl, rfl⟩

/-- C2 (counterexample): with the last recorded action identical to the
candidate (`start@540`), an approved call still appends the duplicate and
writes — the engine does not skip the append independently of confirmation. -/
theorem c2_counterexample_duplicate_appended :
    Pomodoro.add_action
        { time := 540, activity := "work", date := "2024-01-01", linked := true,
          activity_log := [("work", [{ action := "start", time := 540 }])] } "start" true =
      some { state := { time := 540, activity := "work", date := "2024-01-01", linked := true,
                        activity_log := [("work",
                          [{ action := "start", time := 540 },
                           { action := "start", time := 540 }])] },
             wrote := true, dupWarned := true } ∧
    ([("work", [{ action := "start", time := 540 },
                { action := "start", time := 540 }])] : ActivityMap) ≠
      [("work", [{ action := "start", time := 540 }])] :=
  ⟨rfl, by decide⟩

/-- C2 (amended): when the candidate action equals the last recorded action,
the engine emits the duplicate warning but still requests confirmation: on
refusal nothing changes, on approval the duplicate is appended and the state
is written. -/
theorem c2_amended_duplicate_warns_but_gates_on_confirmation
    (p : Pomodoro) (k : String) (ap : Bool) (acts : List Action)
    (hfind : findAct p.activity_log p.activity = some acts)
    (hlast : acts.getLast? = some { action := k, time := p.time }) :
    p.add_action k ap =
      some { state :=
               if ap then
                 { p with activity_log :=
                     appendAct p.activity_log p.activity { action := k, time := p.time } }
               else p,
             wrote := ap, dupWarned := true } := by
  unfold Pomodoro.add_action
  simp only [hfind, hlast]
  cases ap <;> simp

/-- C2 witness. -/
theorem c2_amended_witness :
    Pomodoro.add_action
        { time := 540, activity := "work", date := "2024-01-01", linked := true,
          activity_log := [("work", [{ action := "start", time := 540 }])] } "start" false =
      some { state := { time := 540, activity := "work", date := "2024-01-01", linked := true,
                        activity_log := [("work", [{ action := "start", time := 540 }])] },
             wrote := false, dupWarned := true } := by
  have h := c2_amended_duplicate_warns_but_gates_on_confirmation
      { time := 540, activity := "work", date := "2024-01-01", linked := true,
        activity_log := [("work", [{ action := "start", time := 540 }])] }
      "start" false [{ action := "start", time := 540 }] rfl rfl
  simpa using h

/-- C3 (counterexample): on a refused first `start` for an absent activity,
the in-memory activity mapping gains the key mapped to an empty list — a
piece of lasting state the claim rules out. -/
theorem c3_counterexample_refusal_creates_key :
    (initPomodoro 540 "2024-01-01" "work" none).start false =
      some { state := { time := 540, activity := "work", date := "2024-01-01",
                        linked := false, activity_log := [("work", [])] },
             wrote := false, dupWarned := false } ∧
    ([("work", [])] : ActivityMap) ≠ (initPomodoro 540 "2024-01-01" "work" none).activity_log :=
  ⟨rfl, by decide⟩

/-- C3 (amended): on refusal no action is appended and nothing is written,
and the date/linkage are untouched; when the target activity is present its
state is fully unchanged, but when it is absent a `start` leaves behind an
empty entry for it in the in-memory mapping (a `stop` leaves the state
unchanged). -/
theorem c3_amended_refusal_no_append_but_key_may_appear
    (p : Pomodoro) (r : ActionResult)
    (h : p.start false = some r ∨ p.stop false = some r) :
    r.wrote = false ∧ r.state.date = p.date ∧ r.state.linked = p.linked ∧
    ((∃ acts, findAct p.activity_log p.activity = some acts) → r.state = p) ∧
    (findAct p.activity_log p.activity = none →
       r.state.activity_log = p.activity_log ∨
       r.state.activity_log = setAct p.activity_log p.activity []) := by
  rcases hf : findAct p.activity_log p.activity with _ | acts
  · rcases h with h | h
    · unfold Pomodoro.start at h
      simp only [hf] at h
      unfold Pomodoro.add_action at h
      simp only [hf] at h
      simp at h
      subst h
      simp [hf]
    · unfold Pomodoro.stop at h
      simp only [hf] at h
      simp at h
      subst h
      simp [hf]
  · rcases hl : acts.getLast? with _ | lastA
    · rcases h with h | h
      · unfold Pomodoro.start at h
        simp only [hf, hl] at h
        simp at h
      · unfold Pomodoro.stop at h
        simp only [hf, hl] at h
        simp at h
    · rcases h with h | h
      · unfold Pomodoro.start at h
        simp only [hf, hl] at h
        by_cases hs : lastA.action = "stop"
        · rw [if_neg (by simp [hs])] at h
          unfold Pomodoro.add_action at h
          simp only [hf, hl] at h
          simp at h
          subst h
          simp [hf]
        · rw [if_pos (by simp [hs])] at h
          simp at h
          subst h
          simp [hf]
      · unfold Pomodoro.stop at h
        simp only [hf, hl] at h
        by_cases hs : lastA.action = "start"
        · rw [if_neg (by simp [hs])] at h
          unfold Pomodoro.add_action at h
          simp only [hf, hl] at h
          simp at h
          subst h
          simp [hf]
        · rw [if_pos (by simp [hs])] at h
          simp at h
          subst h
          simp [hf]

/-- C3 witness. -/
theorem c3_amended_witness :
    (let p := initPomodoro 540 "2024-01-01" "work" none
     ∃ r, p.start false = some r ∧ r.wrote = false) := by
  refine ⟨{ state := { time := 540, activity := "work", date := "2024-01-01",
                       linked := false, activity_log := [("work", [])] },
            wrote := false, dupWarned := false }, rfl, ?_⟩
  exact (c3_amended_refusal_no_append_but_key_may_appear
      (initPomodoro 540 "2024-01-01" "work" none) _ (Or.inl rfl)).1

/-- C5: when the activity is Running (its log is present, non-empty, and ends
in a `start`), `start` returns the unchanged state with no write and only the
warning, whatever the gate would answer; and starting twice in a row from an
absent activity with the first call approved leaves exactly one `start` entry. -/
theorem c5_start_running_refused_and_idempotent (p : Pomodoro) (ap ap2 : Bool) :
    (∀ acts lastA, findAct p.activity_log p.activity = some acts →
        acts.getLast? = some lastA → lastA.action = "start" →
        p.start ap = some { state := p, wrote := false, dupWarned := false }) ∧
    (findAct p.activity_log p.activity = none →
       ∃ r1 r2, p.start true = some r1 ∧ r1.state.start ap2 = some r2 ∧
         findAct r2.state.activity_log p.activity =
           some [{ action := "start", time := p.time }]) := by
  constructor
  · intro acts lastA hf hl hk
    unfold Pomodoro.start
    simp only [hf, hl]
    rw [if_pos (by simp [hk])]
  · intro hf
    have h1 : p.start true =
        some { state := { p with activity_log := appendAct (setAct p.activity_log p.activity []) p.activity { action := "start", time := p.time } },
               wrote := true, dupWarned := false } := by
      unfold Pomodoro.start Pomodoro.add_action
      simp [hf]
    set p1 : Pomodoro :=
      { p with activity_log := appendAct (setAct p.activity_log p.activity []) p.activity { action := "start", time := p.time } } with hp1
    have hfind1 : findAct p1.activity_log p.activity =
        some [{ action := "start", time := p.time }] := by
      rw [hp1]
      show findAct (appendAct (setAct p.activity_log p.activity []) p.activity
             { action := "start", time := p.time }) p.activity = _
      rw [findAct_appendAct_self, findAct_setAct_self]
      rfl
    have h2 : p1.start ap2 = some { state := p1, wrote := false, dupWarned := false } := by
      unfold Pomodoro.start
      have hact : p1.activity = p.activity := rfl
      rw [hact, hfind1]
      rfl
    exact ⟨_, _, h1, h2, hfind1⟩

/-- C5 witness. -/
theorem c5_witness :
    (Pomodoro.start
        { time := 540, activity := "work", date := "2024-01-01", linked := true,
          activity_log := [("work", [{ action := "start", time := 500 }])] } true =
      some { state := { time := 540, activity := "work", date := "2024-01-01",
                        linked := true,
                        activity_log := [("work", [{ action := "start", time := 500 }])] },
             wrote := false, dupWarned := false }) ∧
    (∃ r1 r2,
        Pomodoro.start
            { time := 540, activity := "work", date := "2024-01-01", linked := false,
              activity_log := [] } true = some r1 ∧
        r1.state.start true = some r2 ∧
        findAct r2.state.activity_log "work" =
          some [{ action := "start", time := 540 }]) := by
  constructor
  · exact (c5_start_running_refused_and_idempotent
        { time := 540, activity := "work", date := "2024-01-01", linked := true,
          activity_log := [("work", [{ action := "start", time := 500 }])] } true true).1
      [{ action := "start", time := 500 }] { action := "start", time := 500 } rfl rfl rfl
  · exact (c5_start_running_refused_and_idempotent
        { time := 540, activity := "work", date := "2024-01-01", linked := false,
          activity_log := [] } true true).2 rfl

/-- C6: `stop` on an Absent activity, or on one whose last action is a `stop`,
returns the unchanged state with no write and only the warning, whatever the
gate would answer; on a Running activity it defers to the mutation pipeline
`_add_action("stop")`. -/
theorem c6_stop_guard (p : Pomodoro) (ap : Bool) :
    (findAct p.activity_log p.activity = none →
        p.stop ap = some { state := p, wrote := false, dupWarned := false }) ∧
    (∀ acts lastA, findAct p.activity_log p.activity = some acts →
        acts.getLast? = some lastA → lastA.action = "stop" →
        p.stop ap = some { state := p, wrote := false, dupWarned := false }) ∧
    (∀ acts lastA, findAct p.activity_log p.activity = some acts →
        acts.getLast? = some lastA → lastA.action = "start" →
        p.stop ap = p.add_action "stop" ap) := by
  refine ⟨?_, ?_, ?_⟩
  · intro hf
    unfold Pomodoro.stop
    simp only [hf]
  · intro acts lastA hf hl hk
    unfold Pomodoro.stop
    simp only [hf, hl]
    rw [if_pos (by simp [hk])]
  · intro acts lastA hf hl hk
    unfold Pomodoro.stop
    simp only [hf, hl]
    rw [if_neg (by simp [hk])]

/-- C6 witness. -/
theorem c6_witness :
    (Pomodoro.stop
        { time := 540, activity := "work", date := "2024-01-01", linked := false,
          activity_log := [] } true =
      some { state := { time := 540, activity := "work", date := "2024-01-01",
                        linked := false, activity_log := [] },
             wrote := false, dupWarned := false }) ∧
    (Pomodoro.stop
        { time := 560, activity := "work", date := "2024-01-01", linked := true,
          activity_log := [("work", [{ action := "start", time := 500 },
                                     { action := "stop", time := 550 }])] } true =
      some { state := { time := 560, activity := "work", date := "2024-01-01",
                        linked := true,
                        activity_log := [("work", [{ action := "start", time := 500 },
                                                   { action := "stop", time := 550 }])] },
             wrote := false, dupWarned := false }) := by
  constructor
  · exact (c6_stop_guard
        { time := 540, activity := "work", date := "2024-01-01", linked := false,
          activity_log := [] } true).1 rfl
  · exact (c6_stop_guard
        { time := 560, activity := "work", date := "2024-01-01", linked := true,
          activity_log := [("work", [{ action := "start", time := 500 },
                                     { action := "stop", time := 550 }])] } true).2.1
      [{ action := "start", time := 500 }, { action := "stop", time := 550 }]
      { action := "stop", time := 550 } rfl rfl rfl

/-- C7: when the confirmation gate refuses, `_write_update` never runs, so
the per-date file after the call is exactly the file before it. -/
theorem c7_refusal_leaves_file_unchanged (p : Pomodoro) (r : ActionResult)
    (before : Option FileData)
    (h : p.start false = some r ∨ p.stop false = some r) :
    fileAfter before r = before := by
  have hw : r.wrote = false := mutation_refused_wrote p r h
  simp [fileAfter, hw]

/-- C7 witness. -/
theorem c7_witness :
    fileAfter (some { date := "2024-01-01", activities := some [] })
        { state := { time := 540, activity := "work", date := "2024-01-01",
                     linked := true, activity_log := [("work", [])] },
          wrote := false, dupWarned := false } =
      some { date := "2024-01-01", activities := some [] } :=
  c7_refusal_leaves_file_unchanged
    { time := 540, activity := "work", date := "2024-01-01", linked := true,
      activity_log := [] }
    { state := { time := 540, activity := "work", date := "2024-01-01",
                 linked := true, activity_log := [("work", [])] },
      wrote := false, dupWarned := false }
    (some { date := "2024-01-01", activities := some [] })
    (Or.inl rfl)

/-- C10: every call that reaches `_add_action` through the public `start` or
`stop` has a candidate whose kind differs from the last recorded action (or no
last action at all), so the duplicate branch never fires on those paths. -/
theorem c10_duplicate_branch_unreachable_from_public_ops
    (p : Pomodoro) (ap : Bool) (r : ActionResult)
    (h : p.start ap = some r ∨ p.stop ap = some r) :
    r.dupWarned = false := by
  rcases h with h | h
  · unfold Pomodoro.start at h
    rcases hf : findAct p.activity_log p.activity with _ | acts <;> simp only [hf] at h
    · exact add_action_absent_not_dup p "start" ap r hf h
    · rcases hl : acts.getLast? with _ | lastA <;> simp only [hl] at h
      · simp at h
      · by_cases hs : lastA.action = "stop"
        · rw [if_neg (by simp [hs])] at h
          exact add_action_kind_differs_not_dup p "start" ap acts lastA r hf hl
            (by simp [hs]) h
        · rw [if_pos (by simp [hs])] at h
          simp at h
          subst h
          rfl
  · unfold Pomodoro.stop at h
    rcases hf : findAct p.activity_log p.activity with _ | acts <;> simp only [hf] at h
    · simp at h
      subst h
      rfl
    · rcases hl : acts.getLast? with _ | lastA <;> simp only [hl] at h
      · simp at h
      · by_cases hs : lastA.action = "start"
        · rw [if_neg (by simp [hs])] at h
          exact add_action_kind_differs_not_dup p "stop" ap acts lastA r hf hl
            (by simp [hs]) h
        · rw [if_pos (by simp [hs])] at h
          simp at h
          subst h
          rfl

/-- C10 witness. -/
theorem c10_witness :
    ∃ r, Pomodoro.start
        { time := 540, activity := "work", date := "2024-01-01", linked := true,
          activity_log := [("work", [{ action := "stop", time := 540 }])] } true =
      some r ∧ r.dupWarned = false := by
  refine ⟨{ state := { time := 540, activity := "work", date := "2024-01-01",
                       linked := true,
                       activity_log := [("work", [{ action := "stop", time := 540 },
                                                  { action := "start", time := 540 }])] },
            wrote := true, dupWarned := false }, rfl, ?_⟩
  exact c10_duplicate_branch_unreachable_from_public_ops
    { time := 540, activity := "work", date := "2024-01-01", linked := true,
      activity_log := [("work", [{ action := "stop", time := 540 }])] } true _ (Or.inl rfl)

/-! ## Recap arithmetic -/

/-- Shifting the session loop across one complete pair at the head. -/
theorem sessionsTime_cons_cons (a b : Action) (rest : List Action) (n : Nat) :
    sessionsTime (a :: b :: rest) (n + 1) =
      (sessionsTime rest n).map (fun x => x + ((b.time : Int) - (a.time : Int))) := by
  induction n with
  | zero => simp [sessionsTime]
  | succ n ih =>
      conv_lhs => rw [sessionsTime]
      conv_rhs => rw [sessionsTime]
      rw [ih]
      have i1 : 2 * (n + 1) = 2 * n + 1 + 1 := by ring
      rw [i1]
      simp only [List.getElem?_cons_succ]
      rcases h0 : sessionsTime rest n with _ | acc <;>
        rcases h1 : rest[2 * n]? with _ | x <;>
          rcases h2 : rest[2 * n + 1]? with _ | y <;>
            (simp [h0, h1, h2]; try ring)

/-- The session loop over `len/2` pairs computes exactly the consecutive-pair
sum and never goes out of range. -/
theorem sessionsTime_eq_pairsTime (actions : List Action) :
    sessionsTime actions (actions.length / 2) = some (pairsTime actions) := by
  generalize hn : actions.length = n
  induction n using Nat.strong_induction_on generalizing actions with
  | _ n ih =>
      match actions, hn with
      | [], rfl => simp [sessionsTime, pairsTime]
      | [a], rfl => simp [sessionsTime, pairsTime]
      | a :: b :: rest, rfl =>
          have hlen : (a :: b :: rest).length / 2 = rest.length / 2 + 1 := by
            simp only [List.length_cons]
            omega
          rw [hlen, sessionsTime_cons_cons,
              ih rest.length (by simp only [List.length_cons]; omega) rest rfl]
          simp only [Option.map_some', pairsTime, Option.some.injEq]
          ring

/-- Every per-activity row of `recap` computes, and refines the spec-side
pairing formula. -/
theorem recapRow_eq_totalSpec (now : Nat) (actions : List Action) :
    recapRow now actions =
      some (totalSpec now actions, actions.length / 2, actions.length % 2) := by
  unfold recapRow totalSpec
  dsimp only
  rw [sessionsTime_eq_pairsTime]
  by_cases hodd : actions.length % 2 = 1
  · have hne : actions ≠ [] := by
      intro h
      subst h
      simp at hodd
    rcases hl : actions.getLast? with _ | lastA
    · exact absurd (List.getLast?_eq_none_iff.mp hl) hne
    · simp [hodd, hl]
  · have h0 : actions.length % 2 = 0 := by omega
    simp [h0]

/-- Lookup only returns entries of the map. -/
theorem findAct_mem (m : ActivityMap) (k : String) (v : List Action)
    (h : findAct m k = some v) : (k, v) ∈ m := by
  induction m with
  | nil => simp [findAct] at h
  | cons q rest ih =>
      obtain ⟨k1, v1⟩ := q
      by_cases hk : k1 = k
      · subst hk
        rw [findAct, if_pos rfl] at h
        cases h
        exact List.mem_cons_self _ _
      · rw [findAct, if_neg hk] at h
        exact List.mem_cons_of_mem _ (ih h)

/-- Recap computes a row for every activity, with no element access failing. -/
theorem recap_isSome (p : Pomodoro) : (Pomodoro.recap p).isSome := by
  unfold Pomodoro.recap
  induction p.activity_log with
  | nil => simp [recapRows]
  | cons q rest ih =>
      rw [recapRows, recapRow_eq_totalSpec]
      rcases hrest : recapRows p.time rest with _ | rows
      · rw [hrest] at ih
        cases ih
      · simp [hrest]

/-- C4: for every activity log, `recap` computes
`finished = len / 2`, `ongoing = len % 2 ∈ {0, 1}`, and a total equal to the
sum of `stop.time - start.time` over consecutive pairs plus `now - last.time`
when the length is odd; in particular `[start@09:00, stop@09:25, start@10:00]`
at `now = 10:05` yields one finished session, one ongoing, 30 minutes. -/
theorem c4_recap_pairing_formula (now : Nat) (actions : List Action) :
    recapRow now actions =
      some (totalSpec now actions, actions.length / 2, actions.length % 2) ∧
    recapRow 605 [{ action := "start", time := 540 }, { action := "stop", time := 565 },
                  { action := "start", time := 600 }] = some (30, 1, 1) :=
  ⟨recapRow_eq_totalSpec now actions, by decide⟩

/-- C9 (counterexample): on a loaded DayLog that maps an activity to an empty
action list, `stop` evaluates `activity_log[activity][-1]` on an empty list —
the uncaught IndexError modelled by `none`. -/
theorem c9_counterexample_stop_hits_empty_log :
    Pomodoro.stop (initPomodoro 540 "2024-01-01" "work"
        (some { date := "2024-01-01", activities := some [("work", [])] })) true =
      none := rfl

/-- C9 (amended): for every loaded DayLog in which each present activity has
at least one action, `stop` never performs the empty-list access, and
the pairing arithmetic of `recap` never accesses out of range (the latter holds for
every DayLog, an empty action list included). -/
theorem c9_amended_no_empty_access (p : Pomodoro) (ap : Bool)
    (h : ∀ q ∈ p.activity_log, q.2 ≠ ([] : List Action)) :
    (p.stop ap).isSome ∧ (Pomodoro.recap p).isSome := by
  refine ⟨?_, recap_isSome p⟩
  unfold Pomodoro.stop
  rcases hf : findAct p.activity_log p.activity with _ | acts
  · simp
  · have hne : acts ≠ [] := h (p.activity, acts) (findAct_mem _ _ _ hf)
    rcases hl : acts.getLast? with _ | lastA
    · exact absurd (List.getLast?_eq_none_iff.mp hl) hne
    · simp only [hl]
      by_cases hs : lastA.action = "start"
      · rw [if_neg (by simp [hs])]
        unfold Pomodoro.add_action
        simp only [hf, hl]
        cases ap <;> simp
      · rw [if_pos (by simp [hs])]
        simp

/-- C9 witness. -/
theorem c9_witness :
    (Pomodoro.stop
        { time := 540, activity := "work", date := "2024-01-01", linked := true,
          activity_log := [("work", [{ action := "start", time := 500 }])] } true).isSome ∧
    (Pomodoro.recap
        { time := 540, activity := "work", date := "2024-01-01", linked := true,
          activity_log := [("work", [{ action := "start", time := 500 }])] }).isSome :=
  c9_amended_no_empty_access
    { time := 540, activity := "work", date := "2024-01-01", linked := true,
      activity_log := [("work", [{ action := "start", time := 500 }])] } true (by decide)

/-- C8 (counterexample): a DayLog created fresh for a date with no persisted
file and then mutated by an approved `start` does not round-trip: its written
form has no `"activities"` entry, so loading it back yields an empty mapping
while the in-memory DayLog holds one action. -/
theorem c8_counterexample_detached_daylog :
    dayLogOf (initPomodoro 600 "2024-01-01" "work"
        (some (Pomodoro.write_update
          { time := 540, activity := "work", date := "2024-01-01", linked := false,
            activity_log := [("work", [{ action := "start", time := 540 }])] }))) ≠
      dayLogOf { time := 540, activity := "work", date := "2024-01-01", linked := false,
                 activity_log := [("work", [{ action := "start", time := 540 }])] } := by
  decide

/-- C8 (amended): persisting and re-loading returns a structurally identical
DayLog for every state whose activity mapping is part of the persisted data
(`"activities"` key present) or whose mapping is empty; and loading a date
with no persisted file yields a fresh DayLog with the date set and an empty
activity mapping. -/
theorem c8_amended_roundtrip (p : Pomodoro) (t2 : Nat) (a2 : String) (d : String)
    (h : p.linked = true ∨ p.activity_log = []) :
    dayLogOf (initPomodoro t2 p.date a2 (some p.write_update)) = dayLogOf p ∧
    dayLogOf (initPomodoro t2 d a2 none) = (d, []) := by
  constructor
  · unfold dayLogOf initPomodoro Pomodoro.write_update
    rcases hb : p.linked with _ | _
    · rcases h with h | h
      · rw [hb] at h
        cases h
      · simp [h]
    · simp
  · rfl

/-- C8 witness. -/
theorem c8_witness :
    dayLogOf (initPomodoro 600 "2024-01-01" "w"
        (some (Pomodoro.write_update (initPomodoro 540 "2024-01-01" "w" none)))) =
      dayLogOf (initPomodoro 540 "2024-01-01" "w" none) :=
  (c8_amended_roundtrip (initPomodoro 540 "2024-01-01" "w" none) 600 "w" "2024-01-01"
    (Or.inr rfl)).1

end Pom
